import Mathlib

/-!
# Shallow embedding of the payment-engine transaction processor

This file embeds the transaction-application state machine of `src/main.rs`
(the `process_csv` function together with its data model) into Lean 4 and
proves the specification's claims about it.

Modelling decisions:
* `rust_decimal::Decimal` values are modelled as exact rationals (`ℚ`); the
  arithmetic performed by the program (addition, subtraction, comparison) is
  exact on `Decimal` absent overflow, and `round_dp` (banker's rounding to a
  number of decimal places) is modelled as an explicit function on `ℚ`.
* `HashMap<u16, ClientState>` and `HashMap<u32, Transaction>` are modelled as
  functions `ℕ → Option _`; insertion is `Function.update`.
* A Rust panic (the `.unwrap()` on the indexed transaction's amount in the
  Dispute/Resolve/Chargeback arms) is modelled by returning `none`; the whole
  fold runs in the `Option` monad so a panic aborts the run.
-/

/-- How many decimal places to handle for transaction amounts
(`TX_AMOUNT_DECIMAL_PLACES` in `main.rs`). -/
def TX_AMOUNT_DECIMAL_PLACES : ℕ := 4

/-- Round a rational to the nearest integer, ties to even
(the `MidpointNearestEven` strategy used by `Decimal::round_dp`). -/
def roundHalfEven (q : ℚ) : ℤ :=
  if q - (⌊q⌋ : ℚ) < 1 / 2 then ⌊q⌋
  else if 1 / 2 < q - (⌊q⌋ : ℚ) then ⌊q⌋ + 1
  else if ⌊q⌋ % 2 = 0 then ⌊q⌋ else ⌊q⌋ + 1

/-- Model of `Decimal::round_dp`: round to `dp` decimal places, half to even. -/
def round_dp (dp : ℕ) (q : ℚ) : ℚ :=
  (roundHalfEven (q * 10 ^ dp) : ℚ) / 10 ^ dp

/-- The five transaction kinds of the input ledger (`TransactionType`). -/
inductive TransactionType : Type
  | deposit
  | withdrawal
  | dispute
  | resolve
  | chargeback
deriving DecidableEq, Repr

/-- One parsed input record (`Transaction` in `main.rs`).  `amount` is the
raw parsed value, before any rounding. -/
structure Transaction : Type where
  type : TransactionType
  client_id : ℕ
  tx_id : ℕ
  amount : Option ℚ
deriving DecidableEq, Repr

/-- Per-client account state (`ClientState` in `main.rs`). -/
structure ClientState : Type where
  client_id : ℕ
  available : ℚ
  held : ℚ
  total : ℚ
  locked : Bool
  disputed_tx_ids : Finset ℕ
deriving DecidableEq

/-- The `Default for ClientState` impl: zero balances, unlocked, no open disputes. -/
def ClientState.default : ClientState :=
  { client_id := 0
    available := 0
    held := 0
    total := 0
    locked := false
    disputed_tx_ids := ∅ }

/-- The fold state of `process_csv`: the client-state map and the global
disputable-transaction index. -/
structure ProcState : Type where
  client_states : ℕ → Option ClientState
  disputable_transactions : ℕ → Option Transaction

/-- The state `process_csv` starts from: both maps empty. -/
def initState : ProcState :=
  { client_states := fun _ => none
    disputable_transactions := fun _ => none }

/-- Model of `client_states.entry(tx.client_id).or_insert_with(...)`: the existing
account, or a fresh default one carrying the client id. -/
def getOrCreate (m : ℕ → Option ClientState) (cid : ℕ) : ClientState :=
  match m cid with
  | some s => s
  | none => { ClientState.default with client_id := cid }

/-- The `match tx.r#type` of `process_csv`, run when the account is not
locked.  Takes the current account `state` and the rounded `tx_amount`, and
yields the mutated account together with the new disputable index — or `none`
for the panic of `disputed_tx.amount.unwrap()` when the indexed transaction
has no amount. -/
def matchArm (st : ProcState) (state : ClientState) (tx : Transaction)
    (tx_amount : ℚ) : Option (ClientState × (ℕ → Option Transaction)) :=
  match tx.type with
  | TransactionType.deposit =>
      some ({ state with available := state.available + tx_amount },
            Function.update st.disputable_transactions tx.tx_id (some tx))
  | TransactionType.withdrawal =>
      some ((if tx_amount ≤ state.available then
               { state with available := state.available - tx_amount }
             else state),
            Function.update st.disputable_transactions tx.tx_id (some tx))
  | TransactionType.dispute =>
      match st.disputable_transactions tx.tx_id with
      | none => some (state, st.disputable_transactions)
      | some disputed_tx =>
          if tx.tx_id ∈ state.disputed_tx_ids then
            some (state, st.disputable_transactions)
          else
            match disputed_tx.amount with
            | none => none
            | some a =>
                some ({ state with
                        available :=
                          state.available - round_dp TX_AMOUNT_DECIMAL_PLACES a
                        held := state.held + round_dp TX_AMOUNT_DECIMAL_PLACES a
                        disputed_tx_ids := insert tx.tx_id state.disputed_tx_ids },
                      st.disputable_transactions)
  | TransactionType.resolve =>
      match st.disputable_transactions tx.tx_id with
      | none => some (state, st.disputable_transactions)
      | some disputed_tx =>
          if tx.tx_id ∈ state.disputed_tx_ids then
            match disputed_tx.amount with
            | none => none
            | some a =>
                some ({ state with
                        available :=
                          state.available + round_dp TX_AMOUNT_DECIMAL_PLACES a
                        held := state.held - round_dp TX_AMOUNT_DECIMAL_PLACES a
                        disputed_tx_ids := state.disputed_tx_ids.erase tx.tx_id },
                      st.disputable_transactions)
          else some (state, st.disputable_transactions)
  | TransactionType.chargeback =>
      match st.disputable_transactions tx.tx_id with
      | none => some (state, st.disputable_transactions)
      | some disputed_tx =>
          if tx.tx_id ∈ state.disputed_tx_ids then
            match disputed_tx.amount with
            | none => none
            | some a =>
                some ({ state with
                        held := state.held - round_dp TX_AMOUNT_DECIMAL_PLACES a
                        locked := true
                        disputed_tx_ids := state.disputed_tx_ids.erase tx.tx_id },
                      st.disputable_transactions)
          else some (state, st.disputable_transactions)

/-- Processing of one record: the body of the `for` loop of `process_csv`.
`none` models a panic.  After a non-skipped record, `total` is recomputed as
`available + held` (line 191 of `main.rs`). -/
def applyTx (st : ProcState) (tx : Transaction) : Option ProcState :=
  let state := getOrCreate st.client_states tx.client_id
  if state.locked then
    -- Locked account: the entry is still (re)inserted by
    -- `entry().or_insert_with`, but nothing else happens.
    some { st with
           client_states := Function.update st.client_states tx.client_id (some state) }
  else
    (matchArm st state tx (round_dp TX_AMOUNT_DECIMAL_PLACES (tx.amount.getD 0))).map
      fun p =>
        { client_states :=
            Function.update st.client_states tx.client_id
              (some { p.1 with total := p.1.available + p.1.held })
          disputable_transactions := p.2 }

/-- The core of `process_csv`: a strict left-to-right fold of
`applyTx` over the already-parsed records, aborting on panic. -/
def process_csv (txs : List Transaction) : Option ProcState :=
  txs.foldlM applyTx initState

/-- Resume the fold from an arbitrary intermediate state. -/
def processFrom (st : ProcState) (txs : List Transaction) : Option ProcState :=
  txs.foldlM applyTx st

/-- The account recorded for a client, defaulting (exactly as
`entry().or_insert_with` would create it) when the client was never seen. -/
def getClient (st : ProcState) (cid : ℕ) : ClientState :=
  getOrCreate st.client_states cid

/-- The observable balance fields of one client:
(available, held, total, locked). -/
def clientView (st : ProcState) (cid : ℕ) : ℚ × ℚ × ℚ × Bool :=
  ((getClient st cid).available, (getClient st cid).held,
   (getClient st cid).total, (getClient st cid).locked)

/-- The balance invariant: every account's `total` is `available + held`. -/
def StInv (st : ProcState) : Prop :=
  ∀ c, (getClient st c).total = (getClient st c).available + (getClient st c).held

/-! ## Rounding lemmas -/

theorem roundHalfEven_eq_of_near (q : ℚ) (n : ℤ)
    (h1 : (n : ℚ) - 1 / 2 < q) (h2 : q < (n : ℚ) + 1 / 2) :
    roundHalfEven q = n := by
  by_cases hq : (n : ℚ) ≤ q
  · have hf : ⌊q⌋ = n := Int.floor_eq_iff.mpr ⟨hq, by linarith⟩
    unfold roundHalfEven
    rw [hf, if_pos (by linarith)]
  · have hf : ⌊q⌋ = n - 1 := by
      apply Int.floor_eq_iff.mpr
      constructor
      · push_cast; linarith
      · push_cast; linarith
    unfold roundHalfEven
    rw [hf, if_neg (by push_cast; linarith), if_pos (by push_cast; linarith)]
    omega

theorem roundHalfEven_eq_of_tie_lo (q : ℚ) (n : ℤ)
    (h : q = (n : ℚ) + 1 / 2) (he : n % 2 = 0) :
    roundHalfEven q = n := by
  have hf : ⌊q⌋ = n := Int.floor_eq_iff.mpr ⟨by rw [h]; linarith, by rw [h]; linarith⟩
  unfold roundHalfEven
  rw [hf, if_neg (by rw [h]; linarith),
    if_neg (by rw [h]; linarith), if_pos he]

theorem roundHalfEven_eq_of_tie_hi (q : ℚ) (n : ℤ)
    (h : q = (n : ℚ) - 1 / 2) (he : n % 2 = 0) :
    roundHalfEven q = n := by
  have hf : ⌊q⌋ = n - 1 := by
    apply Int.floor_eq_iff.mpr
    constructor
    · rw [h]; push_cast; linarith
    · rw [h]; push_cast; linarith
  unfold roundHalfEven
  rw [hf, if_neg (by rw [h]; push_cast; linarith),
    if_neg (by rw [h]; push_cast; linarith), if_neg (by omega)]
  omega

theorem roundHalfEven_intCast (n : ℤ) : roundHalfEven (n : ℚ) = n :=
  roundHalfEven_eq_of_near _ n (by linarith) (by linarith)

theorem round_dp_eq (dp : ℕ) (q : ℚ) (n : ℤ)
    (h : roundHalfEven (q * 10 ^ dp) = n) :
    round_dp dp q = (n : ℚ) / 10 ^ dp := by
  rw [round_dp, h]

/-- A value that already has at most `dp` decimal places is left unchanged by
`round_dp`. -/
theorem round_dp_eq_self (dp : ℕ) (q : ℚ) (n : ℤ)
    (h : q * 10 ^ dp = (n : ℚ)) :
    round_dp dp q = q := by
  have hp : (10 : ℚ) ^ dp ≠ 0 := by positivity
  rw [round_dp, h, roundHalfEven_intCast, ← h]
  field_simp

/-- Rounding is idempotent. -/
theorem round_dp_idem (dp : ℕ) (q : ℚ) :
    round_dp dp (round_dp dp q) = round_dp dp q := by
  have hp : (10 : ℚ) ^ dp ≠ 0 := by positivity
  apply round_dp_eq_self dp _ (roundHalfEven (q * 10 ^ dp))
  rw [round_dp]
  field_simp

theorem round_dp_one : round_dp TX_AMOUNT_DECIMAL_PLACES (1 : ℚ) = 1 :=
  round_dp_eq_self _ _ 10000 (by norm_num [TX_AMOUNT_DECIMAL_PLACES])

theorem round_dp_zero : round_dp TX_AMOUNT_DECIMAL_PLACES (0 : ℚ) = 0 :=
  round_dp_eq_self _ _ 0 (by norm_num)

example : round_dp 4 (100005 / 100000 : ℚ) = 1 := by
  rw [round_dp_eq 4 _ 10000 (roundHalfEven_eq_of_tie_lo _ _ (by norm_num) (by norm_num))]
  norm_num

example : round_dp 4 (100006 / 100000 : ℚ) = 10001 / 10000 := by
  rw [round_dp_eq 4 _ 10001 (roundHalfEven_eq_of_near _ _ (by norm_num) (by norm_num))]
  norm_num

/-! ## Structural lemmas about one processing step -/

/-- Rewriting `total` to `available + held` is the identity on an account
already satisfying the balance invariant. -/
theorem ClientState.total_rewrite_eq_self (s : ClientState)
    (h : s.total = s.available + s.held) :
    { s with total := s.available + s.held } = s := by
  cases s
  simp_all

/-- A locked account is actually present in the map (a freshly created
account is unlocked). -/
theorem locked_mem (st : ProcState) (c : ℕ)
    (h : (getClient st c).locked = true) :
    st.client_states c = some (getClient st c) := by
  unfold getClient getOrCreate at *
  cases hc : st.client_states c with
  | none => rw [hc] at h; simp [ClientState.default] at h
  | some s => rfl

/-- On a locked account, `applyTx` only re-writes the existing entry. -/
theorem applyTx_locked (st : ProcState) (tx : Transaction)
    (h : (getClient st tx.client_id).locked = true) :
    applyTx st tx = some { st with
      client_states :=
        Function.update st.client_states tx.client_id
          (some (getClient st tx.client_id)) } := by
  unfold getClient at h
  unfold applyTx
  simp only [h, if_true]
  rfl

/-- On an unlocked account, `applyTx` is the match arm followed by the
`total` recomputation. -/
theorem applyTx_unlocked (st : ProcState) (tx : Transaction)
    (h : (getClient st tx.client_id).locked = false) :
    applyTx st tx =
      (matchArm st (getClient st tx.client_id) tx
          (round_dp TX_AMOUNT_DECIMAL_PLACES (tx.amount.getD 0))).map
        fun p =>
          { client_states :=
              Function.update st.client_states tx.client_id
                (some { p.1 with total := p.1.available + p.1.held })
            disputable_transactions := p.2 } := by
  unfold getClient at h
  unfold applyTx
  simp only [h]
  rfl

/-- Any successful step writes exactly one client entry. -/
theorem applyTx_shape (st : ProcState) (tx : Transaction) (st' : ProcState)
    (h : applyTx st tx = some st') :
    ∃ s : ClientState,
      st'.client_states =
        Function.update st.client_states tx.client_id (some s) := by
  by_cases hl : (getClient st tx.client_id).locked = true
  · rw [applyTx_locked st tx hl] at h
    exact ⟨getClient st tx.client_id, by rw [← Option.some_inj.mp h]⟩
  · rw [applyTx_unlocked st tx (by simpa using hl)] at h
    rcases Option.map_eq_some'.mp h with ⟨p, _, hp⟩
    exact ⟨_, by rw [← hp]⟩

/-- Accounts of other clients are untouched by a step. -/
theorem applyTx_cs_ne (st : ProcState) (tx : Transaction) (st' : ProcState)
    (h : applyTx st tx = some st') (c : ℕ) (hc : c ≠ tx.client_id) :
    st'.client_states c = st.client_states c := by
  rcases applyTx_shape st tx st' h with ⟨s, hs⟩
  rw [hs, Function.update_noteq hc]

/-- Accounts of other clients are untouched by a step (getter form). -/
theorem getClient_applyTx_ne (st : ProcState) (tx : Transaction) (st' : ProcState)
    (h : applyTx st tx = some st') (c : ℕ) (hc : c ≠ tx.client_id) :
    getClient st' c = getClient st c := by
  unfold getClient getOrCreate
  rw [applyTx_cs_ne st tx st' h c hc]

/-- A step never touches the account of a client whose account is locked:
the written entry is the old one. -/
theorem applyTx_locked_client_frozen (st : ProcState) (tx : Transaction)
    (st' : ProcState) (c : ℕ)
    (hl : (getClient st c).locked = true) (h : applyTx st tx = some st') :
    st'.client_states c = st.client_states c := by
  by_cases hc : c = tx.client_id
  · subst hc
    rw [applyTx_locked st tx hl] at h
    rw [← Option.some_inj.mp h]
    simp only [Function.update_same]
    exact (locked_mem st tx.client_id hl).symm
  · exact applyTx_cs_ne st tx st' h c hc

/-- Transport the account getter along equal map entries. -/
theorem getClient_congr (st st' : ProcState) (c : ℕ)
    (h : st'.client_states c = st.client_states c) :
    getClient st' c = getClient st c := by
  unfold getClient getOrCreate
  rw [h]

/-- Read the getter off an explicit map entry. -/
theorem getClient_of_cs_eq_some (st' : ProcState) (s : ClientState) (c : ℕ)
    (h : st'.client_states c = some s) :
    getClient st' c = s := by
  unfold getClient getOrCreate
  rw [h]

/-! ## The balance invariant -/

theorem StInv_initState : StInv initState := by
  intro c
  simp [getClient, getOrCreate, initState, ClientState.default]

/-- One step preserves the balance invariant. -/
theorem applyTx_inv (st : ProcState) (tx : Transaction) (st' : ProcState)
    (hinv : StInv st) (h : applyTx st tx = some st') : StInv st' := by
  intro c
  by_cases hc : c = tx.client_id
  · subst hc
    by_cases hl : (getClient st tx.client_id).locked = true
    · rw [getClient_congr st st' tx.client_id
        (applyTx_locked_client_frozen st tx st' tx.client_id hl h)]
      exact hinv tx.client_id
    · rw [applyTx_unlocked st tx (by simpa using hl)] at h
      rcases Option.map_eq_some'.mp h with ⟨p, _, hp⟩
      rw [getClient_of_cs_eq_some st' _ tx.client_id
        (by rw [← hp]; exact Function.update_same _ _ _)]
  · rw [getClient_applyTx_ne st tx st' h c hc]
    exact hinv c

/-- The invariant holds after any (partial) run. -/
theorem processFrom_inv (txs : List Transaction) :
    ∀ st st', StInv st → processFrom st txs = some st' → StInv st' := by
  induction txs with
  | nil =>
      intro st st' hinv h
      obtain rfl : st = st' := Option.some_inj.mp h
      exact hinv
  | cons a l ih =>
      intro st st' hinv h
      cases ha : applyTx st a with
      | none => simp [processFrom, List.foldlM_cons, ha] at h
      | some mid =>
          simp only [processFrom, List.foldlM_cons, ha] at h
          exact ih mid st' (applyTx_inv st a mid hinv ha) h

/-- Claim C2: For every client account, after every processed record, `total`
equals `available + held` exactly. -/
theorem total_eq_available_add_held (txs : List Transaction) (c : ℕ) :
    (getClient ((process_csv txs).getD initState) c).total =
      (getClient ((process_csv txs).getD initState) c).available +
        (getClient ((process_csv txs).getD initState) c).held := by
  cases hp : process_csv txs with
  | none => simpa using StInv_initState c
  | some st => simpa using processFrom_inv txs initState st StInv_initState hp c

/-! ## Locked accounts are frozen -/

/-- Over any run suffix, a locked account's map entry is untouched. -/
theorem processFrom_locked_frozen (txs : List Transaction) :
    ∀ st st' c, (getClient st c).locked = true →
      processFrom st txs = some st' →
      st'.client_states c = st.client_states c := by
  induction txs with
  | nil =>
      intro st st' c _ h
      obtain rfl : st = st' := Option.some_inj.mp h
      rfl
  | cons a l ih =>
      intro st st' c hl h
      cases ha : applyTx st a with
      | none => simp [processFrom, List.foldlM_cons, ha] at h
      | some mid =>
          simp only [processFrom, List.foldlM_cons, ha] at h
          have hmid : mid.client_states c = st.client_states c :=
            applyTx_locked_client_frozen st a mid c hl ha
          have hlmid : (getClient mid c).locked = true := by
            rw [getClient_congr st mid c hmid]; exact hl
          rw [ih mid st' c hlmid h, hmid]

/-- Claim C3: Once a client's `locked` flag is true, every later record leaves
that client's `available`, `held`, `total`, `disputed_tx_ids` (the whole
account) unchanged, and `locked` never reverts to false. -/
theorem locked_account_frozen (st : ProcState) (txs : List Transaction)
    (st' : ProcState) (c : ℕ)
    (hl : (getClient st c).locked = true)
    (h : processFrom st txs = some st') :
    getClient st' c = getClient st c ∧ (getClient st' c).locked = true := by
  have hcs := processFrom_locked_frozen txs st st' c hl h
  refine ⟨getClient_congr st st' c hcs, ?_⟩
  rw [getClient_congr st st' c hcs]
  exact hl

/-- A concrete state with client 1 locked, used to witness `locked_account_frozen`. -/
def lockedDemo : ProcState :=
  { client_states :=
      Function.update (fun _ => none) 1
        (some { client_id := 1, available := 3, held := 0, total := 3,
                locked := true, disputed_tx_ids := ∅ })
    disputable_transactions := fun _ => none }

theorem locked_account_frozen_witness :
    getClient ((processFrom lockedDemo
        [⟨TransactionType.deposit, 1, 9, some 5⟩]).getD initState) 1 =
      getClient lockedDemo 1 ∧
    (getClient ((processFrom lockedDemo
        [⟨TransactionType.deposit, 1, 9, some 5⟩]).getD initState) 1).locked = true :=
  locked_account_frozen lockedDemo [⟨TransactionType.deposit, 1, 9, some 5⟩]
    ((processFrom lockedDemo [⟨TransactionType.deposit, 1, 9, some 5⟩]).getD initState)
    1 (by rfl) (by rfl)

/-! ## The disputable index -/

/-- The arm only writes the index for Deposit/Withdrawal, under the record's
own `tx_id`; dispute-family arms leave it untouched. -/
theorem matchArm_dt_cases (st : ProcState) (state : ClientState)
    (tx : Transaction) (amt : ℚ) (p : ClientState × (ℕ → Option Transaction))
    (h : matchArm st state tx amt = some p) :
    ((tx.type = TransactionType.deposit ∨ tx.type = TransactionType.withdrawal) ∧
      p.2 = Function.update st.disputable_transactions tx.tx_id (some tx)) ∨
    p.2 = st.disputable_transactions := by
  cases htype : tx.type
  case deposit =>
    simp only [matchArm, htype] at h
    exact Or.inl ⟨Or.inl rfl, by rw [← Option.some_inj.mp h]⟩
  case withdrawal =>
    simp only [matchArm, htype] at h
    exact Or.inl ⟨Or.inr rfl, by rw [← Option.some_inj.mp h]⟩
  case dispute =>
    simp only [matchArm, htype] at h
    refine Or.inr ?_
    cases hdt : st.disputable_transactions tx.tx_id with
    | none =>
        simp only [hdt] at h
        rw [← Option.some_inj.mp h]
    | some dtx =>
        simp only [hdt] at h
        by_cases hmem : tx.tx_id ∈ state.disputed_tx_ids
        · rw [if_pos hmem] at h
          rw [← Option.some_inj.mp h]
        · rw [if_neg hmem] at h
          cases hamt : dtx.amount with
          | none => simp only [hamt] at h; exact Option.noConfusion h
          | some a => simp only [hamt] at h; rw [← Option.some_inj.mp h]
  case resolve =>
    simp only [matchArm, htype] at h
    refine Or.inr ?_
    cases hdt : st.disputable_transactions tx.tx_id with
    | none =>
        simp only [hdt] at h
        rw [← Option.some_inj.mp h]
    | some dtx =>
        simp only [hdt] at h
        by_cases hmem : tx.tx_id ∈ state.disputed_tx_ids
        · rw [if_pos hmem] at h
          cases hamt : dtx.amount with
          | none => simp only [hamt] at h; exact Option.noConfusion h
          | some a => simp only [hamt] at h; rw [← Option.some_inj.mp h]
        · rw [if_neg hmem] at h
          rw [← Option.some_inj.mp h]
  case chargeback =>
    simp only [matchArm, htype] at h
    refine Or.inr ?_
    cases hdt : st.disputable_transactions tx.tx_id with
    | none =>
        simp only [hdt] at h
        rw [← Option.some_inj.mp h]
    | some dtx =>
        simp only [hdt] at h
        by_cases hmem : tx.tx_id ∈ state.disputed_tx_ids
        · rw [if_pos hmem] at h
          cases hamt : dtx.amount with
          | none => simp only [hamt] at h; exact Option.noConfusion h
          | some a => simp only [hamt] at h; rw [← Option.some_inj.mp h]
        · rw [if_neg hmem] at h
          rw [← Option.some_inj.mp h]

/-- A step keeps an index slot empty unless the record is a Deposit or
Withdrawal with that very `tx_id`. -/
theorem applyTx_dt_none (st : ProcState) (tx : Transaction) (st' : ProcState)
    (h : applyTx st tx = some st') (t : ℕ)
    (h0 : st.disputable_transactions t = none)
    (hnot : ¬(tx.tx_id = t ∧
      (tx.type = TransactionType.deposit ∨ tx.type = TransactionType.withdrawal))) :
    st'.disputable_transactions t = none := by
  by_cases hl : (getClient st tx.client_id).locked = true
  · rw [applyTx_locked st tx hl] at h
    rw [← Option.some_inj.mp h]
    exact h0
  · rw [applyTx_unlocked st tx (by simpa using hl)] at h
    rcases Option.map_eq_some'.mp h with ⟨p, hp, hcom⟩
    have hdt : st'.disputable_transactions = p.2 := by rw [← hcom]
    rcases matchArm_dt_cases st _ tx _ p hp with ⟨hty, hupd⟩ | hsame
    · have hne : t ≠ tx.tx_id := fun ht => hnot ⟨ht.symm, hty⟩
      rw [hdt, hupd, Function.update_noteq hne]
      exact h0
    · rw [hdt, hsame]
      exact h0

/-- Over a whole run, a `tx_id` never seen as Deposit/Withdrawal stays out of
the disputable index. -/
theorem processFrom_dt_none (txs : List Transaction) :
    ∀ st st' t, processFrom st txs = some st' →
      st.disputable_transactions t = none →
      (∀ tx ∈ txs, tx.tx_id = t →
        tx.type ≠ TransactionType.deposit ∧ tx.type ≠ TransactionType.withdrawal) →
      st'.disputable_transactions t = none := by
  induction txs with
  | nil =>
      intro st st' t h h0 _
      obtain rfl : st = st' := Option.some_inj.mp h
      exact h0
  | cons a l ih =>
      intro st st' t h h0 hn
      cases ha : applyTx st a with
      | none => simp [processFrom, List.foldlM_cons, ha] at h
      | some mid =>
          simp only [processFrom, List.foldlM_cons, ha] at h
          refine ih mid st' t h ?_ (fun tx htx => hn tx (List.mem_cons_of_mem a htx))
          refine applyTx_dt_none st a mid ha t h0 ?_
          rintro ⟨hid, hty⟩
          rcases hn a (List.mem_cons_self a l) hid with ⟨h1, h2⟩
          rcases hty with hty | hty
          · exact h1 hty
          · exact h2 hty

/-- Extensionality for the fold state. -/
theorem ProcState.ext_fields (s t : ProcState)
    (h1 : s.client_states = t.client_states)
    (h2 : s.disputable_transactions = t.disputable_transactions) : s = t := by
  cases s; cases t
  cases h1; cases h2
  rfl

/-- Claim C7: A Dispute/Resolve/Chargeback whose `tx_id` was never seen as a
Deposit or Withdrawal is a pure no-op: every client's observable fields
(available, held, total, locked) are unchanged. -/
theorem unknown_tx_ref_noop (txs : List Transaction) (st : ProcState)
    (d : Transaction)
    (hrun : process_csv txs = some st)
    (hk : d.type = TransactionType.dispute ∨ d.type = TransactionType.resolve ∨
      d.type = TransactionType.chargeback)
    (hnever : ∀ tx ∈ txs, tx.tx_id = d.tx_id →
      tx.type ≠ TransactionType.deposit ∧ tx.type ≠ TransactionType.withdrawal) :
    ∃ st', applyTx st d = some st' ∧ ∀ c, clientView st' c = clientView st c := by
  have hdt : st.disputable_transactions d.tx_id = none :=
    processFrom_dt_none txs initState st d.tx_id hrun rfl hnever
  have hinv : StInv st := processFrom_inv txs initState st StInv_initState hrun
  by_cases hl : (getClient st d.client_id).locked = true
  · refine ⟨_, applyTx_locked st d hl, ?_⟩
    intro c
    by_cases hc : c = d.client_id
    · subst hc
      unfold clientView
      rw [getClient_of_cs_eq_some _ _ _ (Function.update_same _ _ _)]
    · unfold clientView
      rw [getClient_congr st _ c (Function.update_noteq hc _ _)]
  · have hl' : (getClient st d.client_id).locked = false := by simpa using hl
    rcases hk with hk | hk | hk
    all_goals {
      rw [applyTx_unlocked st d hl']
      simp only [matchArm, hk, hdt, Option.map_some']
      refine ⟨_, rfl, ?_⟩
      intro c
      by_cases hc : c = d.client_id
      · subst hc
        unfold clientView
        rw [getClient_of_cs_eq_some _ _ _ (Function.update_same _ _ _),
          ClientState.total_rewrite_eq_self _ (hinv d.client_id)]
      · unfold clientView
        rw [getClient_congr st _ c (Function.update_noteq hc _ _)]
    }

/-- A one-deposit run used as a witness state. -/
def demoC7 : List Transaction := [⟨TransactionType.deposit, 2, 5, some 7⟩]

theorem unknown_tx_ref_noop_witness :
    ∃ st', applyTx ((process_csv demoC7).get (by rfl))
        ⟨TransactionType.dispute, 1, 9, none⟩ = some st' ∧
      ∀ c, clientView st' c = clientView ((process_csv demoC7).get (by rfl)) c :=
  unknown_tx_ref_noop demoC7 ((process_csv demoC7).get (by rfl))
    ⟨TransactionType.dispute, 1, 9, none⟩
    (Option.some_get (by rfl)).symm
    (Or.inl rfl)
    (by intro tx htx; rw [demoC7, List.mem_singleton] at htx; subst htx; intro hid
        exact absurd hid (by decide))

/-! ## Withdrawal behaviour -/

/-- Claim C4: A Withdrawal on an unlocked account decreases `available` by the
rounded amount when funds suffice, changes nothing otherwise, and in both
cases the record is inserted into the disputable index under its `tx_id`. -/
theorem withdrawal_spec (st : ProcState) (tx : Transaction)
    (htype : tx.type = TransactionType.withdrawal)
    (hl : (getClient st tx.client_id).locked = false)
    (hinv : (getClient st tx.client_id).total =
      (getClient st tx.client_id).available + (getClient st tx.client_id).held) :
    ∃ st', applyTx st tx = some st' ∧
      st'.disputable_transactions =
        Function.update st.disputable_transactions tx.tx_id (some tx) ∧
      (if round_dp TX_AMOUNT_DECIMAL_PLACES (tx.amount.getD 0) ≤
          (getClient st tx.client_id).available then
        (getClient st' tx.client_id).available =
          (getClient st tx.client_id).available -
            round_dp TX_AMOUNT_DECIMAL_PLACES (tx.amount.getD 0) ∧
        (getClient st' tx.client_id).held = (getClient st tx.client_id).held ∧
        (getClient st' tx.client_id).total =
          (getClient st tx.client_id).total -
            round_dp TX_AMOUNT_DECIMAL_PLACES (tx.amount.getD 0)
      else getClient st' tx.client_id = getClient st tx.client_id) := by
  rw [applyTx_unlocked st tx hl]
  simp only [matchArm, htype, Option.map_some']
  refine ⟨_, rfl, rfl, ?_⟩
  by_cases hle : round_dp TX_AMOUNT_DECIMAL_PLACES (tx.amount.getD 0) ≤
      (getClient st tx.client_id).available
  · rw [if_pos hle, if_pos hle,
      getClient_of_cs_eq_some _ _ _ (Function.update_same _ _ _)]
    refine ⟨rfl, rfl, ?_⟩
    show (getClient st tx.client_id).available -
        round_dp TX_AMOUNT_DECIMAL_PLACES (tx.amount.getD 0) +
        (getClient st tx.client_id).held = _
    rw [hinv]
    ring
  · rw [if_neg hle, if_neg hle,
      getClient_of_cs_eq_some _ _ _ (Function.update_same _ _ _)]
    exact ClientState.total_rewrite_eq_self _ hinv

/-- A concrete unlocked state: client 1 has 3 available, and the index holds
a deposit of client 2 (tx 4, amount 2). -/
def unlockedDemo : ProcState :=
  { client_states :=
      Function.update (fun _ => none) 1
        (some { client_id := 1, available := 3, held := 0, total := 3,
                locked := false, disputed_tx_ids := ∅ })
    disputable_transactions :=
      Function.update (fun _ => none) 4
        (some ⟨TransactionType.deposit, 2, 4, some 2⟩) }

theorem withdrawal_spec_witness :
    ∃ st', applyTx unlockedDemo ⟨TransactionType.withdrawal, 1, 9, some 2⟩ = some st' ∧
      st'.disputable_transactions =
        Function.update unlockedDemo.disputable_transactions 9
          (some ⟨TransactionType.withdrawal, 1, 9, some 2⟩) ∧
      (if round_dp TX_AMOUNT_DECIMAL_PLACES ((some (2 : ℚ)).getD 0) ≤
          (getClient unlockedDemo 1).available then
        (getClient st' 1).available =
          (getClient unlockedDemo 1).available -
            round_dp TX_AMOUNT_DECIMAL_PLACES ((some (2 : ℚ)).getD 0) ∧
        (getClient st' 1).held = (getClient unlockedDemo 1).held ∧
        (getClient st' 1).total =
          (getClient unlockedDemo 1).total -
            round_dp TX_AMOUNT_DECIMAL_PLACES ((some (2 : ℚ)).getD 0)
      else getClient st' 1 = getClient unlockedDemo 1) :=
  withdrawal_spec unlockedDemo ⟨TransactionType.withdrawal, 1, 9, some 2⟩
    rfl rfl (by simp [unlockedDemo, getClient, getOrCreate])

/-! ## Dispute behaviour -/

/-- Full effect of a successful Dispute: the account named by the dispute
record's own `client_id` is mutated, using the (re-rounded) amount of the
indexed original record; the index itself and all other clients are
untouched.  No relation between `otx.client_id` and `d.client_id` is
required. -/
theorem dispute_success_fields (st : ProcState) (d otx : Transaction) (a : ℚ)
    (htype : d.type = TransactionType.dispute)
    (hl : (getClient st d.client_id).locked = false)
    (hidx : st.disputable_transactions d.tx_id = some otx)
    (hamt : otx.amount = some a)
    (hopen : d.tx_id ∉ (getClient st d.client_id).disputed_tx_ids) :
    ∃ st', applyTx st d = some st' ∧
      st'.disputable_transactions = st.disputable_transactions ∧
      (getClient st' d.client_id).available =
        (getClient st d.client_id).available -
          round_dp TX_AMOUNT_DECIMAL_PLACES a ∧
      (getClient st' d.client_id).held =
        (getClient st d.client_id).held + round_dp TX_AMOUNT_DECIMAL_PLACES a ∧
      (getClient st' d.client_id).disputed_tx_ids =
        insert d.tx_id (getClient st d.client_id).disputed_tx_ids ∧
      (getClient st' d.client_id).locked = (getClient st d.client_id).locked ∧
      ∀ c, c ≠ d.client_id → getClient st' c = getClient st c := by
  rw [applyTx_unlocked st d hl]
  simp only [matchArm, htype, hidx, hamt, if_neg hopen, Option.map_some']
  refine ⟨_, rfl, rfl, ?_⟩
  rw [getClient_of_cs_eq_some _ _ _ (Function.update_same _ _ _)]
  exact ⟨rfl, rfl, rfl, rfl, fun c hc =>
    getClient_congr st _ c (Function.update_noteq hc _ _)⟩

/-- Full effect of a successful Resolve: the account named by the resolve
record's own `client_id` is mutated, using the (re-rounded) amount of the
indexed original record; the index itself and all other clients are
untouched.  No relation between `otx.client_id` and `d.client_id` is
required. -/
theorem resolve_success_fields (st : ProcState) (d otx : Transaction) (a : ℚ)
    (htype : d.type = TransactionType.resolve)
    (hl : (getClient st d.client_id).locked = false)
    (hidx : st.disputable_transactions d.tx_id = some otx)
    (hamt : otx.amount = some a)
    (hmem : d.tx_id ∈ (getClient st d.client_id).disputed_tx_ids) :
    ∃ st', applyTx st d = some st' ∧
      st'.disputable_transactions = st.disputable_transactions ∧
      (getClient st' d.client_id).available =
        (getClient st d.client_id).available +
          round_dp TX_AMOUNT_DECIMAL_PLACES a ∧
      (getClient st' d.client_id).held =
        (getClient st d.client_id).held - round_dp TX_AMOUNT_DECIMAL_PLACES a ∧
      (getClient st' d.client_id).disputed_tx_ids =
        (getClient st d.client_id).disputed_tx_ids.erase d.tx_id ∧
      (getClient st' d.client_id).locked = (getClient st d.client_id).locked ∧
      ∀ c, c ≠ d.client_id → getClient st' c = getClient st c := by
  rw [applyTx_unlocked st d hl]
  simp only [matchArm, htype, hidx, if_pos hmem, hamt, Option.map_some']
  refine ⟨_, rfl, rfl, ?_⟩
  rw [getClient_of_cs_eq_some _ _ _ (Function.update_same _ _ _)]
  exact ⟨rfl, rfl, rfl, rfl, fun c hc =>
    getClient_congr st _ c (Function.update_noteq hc _ _)⟩

/-- Full effect of a successful Chargeback: the account named by the record's
own `client_id` is mutated (held decreased, locked set), using the
(re-rounded) amount of the indexed original record; the index and all other
clients are untouched.  No relation between `otx.client_id` and
`d.client_id` is required. -/
theorem chargeback_success_fields (st : ProcState) (d otx : Transaction) (a : ℚ)
    (htype : d.type = TransactionType.chargeback)
    (hl : (getClient st d.client_id).locked = false)
    (hidx : st.disputable_transactions d.tx_id = some otx)
    (hamt : otx.amount = some a)
    (hmem : d.tx_id ∈ (getClient st d.client_id).disputed_tx_ids) :
    ∃ st', applyTx st d = some st' ∧
      st'.disputable_transactions = st.disputable_transactions ∧
      (getClient st' d.client_id).available =
        (getClient st d.client_id).available ∧
      (getClient st' d.client_id).held =
        (getClient st d.client_id).held - round_dp TX_AMOUNT_DECIMAL_PLACES a ∧
      (getClient st' d.client_id).disputed_tx_ids =
        (getClient st d.client_id).disputed_tx_ids.erase d.tx_id ∧
      (getClient st' d.client_id).locked = true ∧
      ∀ c, c ≠ d.client_id → getClient st' c = getClient st c := by
  rw [applyTx_unlocked st d hl]
  simp only [matchArm, htype, hidx, if_pos hmem, hamt, Option.map_some']
  refine ⟨_, rfl, rfl, ?_⟩
  rw [getClient_of_cs_eq_some _ _ _ (Function.update_same _ _ _)]
  exact ⟨rfl, rfl, rfl, rfl, fun c hc =>
    getClient_congr st _ c (Function.update_noteq hc _ _)⟩

/-- Claim C6: Every Dispute, Resolve, or Chargeback record mutates the
account named by its own `client_id`, with the amount taken from the
globally indexed original record; no check relates the two client ids, so a
dispute-family record naming a different client than the original
transaction still takes effect on the named client using the original
amount. -/
theorem dispute_family_uses_own_client_and_indexed_amount :
    (∀ (st : ProcState) (d otx : Transaction) (a : ℚ),
      d.type = TransactionType.dispute →
      (getClient st d.client_id).locked = false →
      st.disputable_transactions d.tx_id = some otx →
      otx.amount = some a →
      d.tx_id ∉ (getClient st d.client_id).disputed_tx_ids →
      ∃ st', applyTx st d = some st' ∧
        (getClient st' d.client_id).available =
          (getClient st d.client_id).available -
            round_dp TX_AMOUNT_DECIMAL_PLACES a ∧
        (getClient st' d.client_id).held =
          (getClient st d.client_id).held + round_dp TX_AMOUNT_DECIMAL_PLACES a ∧
        (getClient st' d.client_id).disputed_tx_ids =
          insert d.tx_id (getClient st d.client_id).disputed_tx_ids ∧
        ∀ c, c ≠ d.client_id → getClient st' c = getClient st c) ∧
    (∀ (st : ProcState) (d otx : Transaction) (a : ℚ),
      d.type = TransactionType.resolve →
      (getClient st d.client_id).locked = false →
      st.disputable_transactions d.tx_id = some otx →
      otx.amount = some a →
      d.tx_id ∈ (getClient st d.client_id).disputed_tx_ids →
      ∃ st', applyTx st d = some st' ∧
        (getClient st' d.client_id).available =
          (getClient st d.client_id).available +
            round_dp TX_AMOUNT_DECIMAL_PLACES a ∧
        (getClient st' d.client_id).held =
          (getClient st d.client_id).held - round_dp TX_AMOUNT_DECIMAL_PLACES a ∧
        (getClient st' d.client_id).disputed_tx_ids =
          (getClient st d.client_id).disputed_tx_ids.erase d.tx_id ∧
        ∀ c, c ≠ d.client_id → getClient st' c = getClient st c) ∧
    (∀ (st : ProcState) (d otx : Transaction) (a : ℚ),
      d.type = TransactionType.chargeback →
      (getClient st d.client_id).locked = false →
      st.disputable_transactions d.tx_id = some otx →
      otx.amount = some a →
      d.tx_id ∈ (getClient st d.client_id).disputed_tx_ids →
      ∃ st', applyTx st d = some st' ∧
        (getClient st' d.client_id).available =
          (getClient st d.client_id).available ∧
        (getClient st' d.client_id).held =
          (getClient st d.client_id).held - round_dp TX_AMOUNT_DECIMAL_PLACES a ∧
        (getClient st' d.client_id).locked = true ∧
        (getClient st' d.client_id).disputed_tx_ids =
          (getClient st d.client_id).disputed_tx_ids.erase d.tx_id ∧
        ∀ c, c ≠ d.client_id → getClient st' c = getClient st c) := by
  refine ⟨?_, ?_, ?_⟩
  · intro st d otx a htype hl hidx hamt hopen
    rcases dispute_success_fields st d otx a htype hl hidx hamt hopen with
      ⟨st', h1, _, h3, h4, h5, _, h7⟩
    exact ⟨st', h1, h3, h4, h5, h7⟩
  · intro st d otx a htype hl hidx hamt hmem
    rcases resolve_success_fields st d otx a htype hl hidx hamt hmem with
      ⟨st', h1, _, h3, h4, h5, _, h7⟩
    exact ⟨st', h1, h3, h4, h5, h7⟩
  · intro st d otx a htype hl hidx hamt hmem
    rcases chargeback_success_fields st d otx a htype hl hidx hamt hmem with
      ⟨st', h1, _, h3, h4, h5, h6, h7⟩
    exact ⟨st', h1, h3, h4, h6, h5, h7⟩

/-- A concrete unlocked state with an open dispute: client 1 has tx 4 in its
disputed set, and the index attributes tx 4 to client 2 with amount 2. -/
def disputedDemo : ProcState :=
  { client_states :=
      Function.update (fun _ => none) 1
        (some { client_id := 1, available := 1, held := 2, total := 3,
                locked := false, disputed_tx_ids := {4} })
    disputable_transactions :=
      Function.update (fun _ => none) 4
        (some ⟨TransactionType.deposit, 2, 4, some 2⟩) }

/-- Witness: client 1 disputes, resolves, and charges back tx 4, which the
index attributes to client 2 with amount 2; client 1's account is mutated
by 2 in each case. -/
theorem dispute_family_uses_own_client_and_indexed_amount_witness :
    (∃ st', applyTx unlockedDemo ⟨TransactionType.dispute, 1, 4, none⟩ = some st' ∧
      (getClient st' 1).available =
        (getClient unlockedDemo 1).available -
          round_dp TX_AMOUNT_DECIMAL_PLACES 2 ∧
      (getClient st' 1).held =
        (getClient unlockedDemo 1).held + round_dp TX_AMOUNT_DECIMAL_PLACES 2 ∧
      (getClient st' 1).disputed_tx_ids =
        insert 4 (getClient unlockedDemo 1).disputed_tx_ids ∧
      ∀ c, c ≠ 1 → getClient st' c = getClient unlockedDemo c) ∧
    (∃ st', applyTx disputedDemo ⟨TransactionType.resolve, 1, 4, none⟩ = some st' ∧
      (getClient st' 1).available =
        (getClient disputedDemo 1).available +
          round_dp TX_AMOUNT_DECIMAL_PLACES 2 ∧
      (getClient st' 1).held =
        (getClient disputedDemo 1).held - round_dp TX_AMOUNT_DECIMAL_PLACES 2 ∧
      (getClient st' 1).disputed_tx_ids =
        (getClient disputedDemo 1).disputed_tx_ids.erase 4 ∧
      ∀ c, c ≠ 1 → getClient st' c = getClient disputedDemo c) ∧
    (∃ st', applyTx disputedDemo ⟨TransactionType.chargeback, 1, 4, none⟩ = some st' ∧
      (getClient st' 1).available = (getClient disputedDemo 1).available ∧
      (getClient st' 1).held =
        (getClient disputedDemo 1).held - round_dp TX_AMOUNT_DECIMAL_PLACES 2 ∧
      (getClient st' 1).locked = true ∧
      (getClient st' 1).disputed_tx_ids =
        (getClient disputedDemo 1).disputed_tx_ids.erase 4 ∧
      ∀ c, c ≠ 1 → getClient st' c = getClient disputedDemo c) :=
  ⟨dispute_family_uses_own_client_and_indexed_amount.1 unlockedDemo
      ⟨TransactionType.dispute, 1, 4, none⟩ ⟨TransactionType.deposit, 2, 4, some 2⟩ 2
      rfl rfl rfl rfl (by simp [unlockedDemo, getClient, getOrCreate]),
   dispute_family_uses_own_client_and_indexed_amount.2.1 disputedDemo
      ⟨TransactionType.resolve, 1, 4, none⟩ ⟨TransactionType.deposit, 2, 4, some 2⟩ 2
      rfl rfl rfl rfl (by decide),
   dispute_family_uses_own_client_and_indexed_amount.2.2 disputedDemo
      ⟨TransactionType.chargeback, 1, 4, none⟩ ⟨TransactionType.deposit, 2, 4, some 2⟩ 2
      rfl rfl rfl rfl (by decide)⟩

/-! ## Where rounding happens -/

/-- Claim C5, counterexample: After a deposit of 1.00005, the disputable index
holds the raw amount 1.00005 — not the rounded 1.0000 = 1: the amount is not
rounded before being stored in the index. -/
theorem index_amount_not_rounded :
    ((((process_csv [⟨TransactionType.deposit, 1, 1, some (100005 / 100000)⟩]).getD
        initState).disputable_transactions 1).bind Transaction.amount) =
      some (100005 / 100000 : ℚ) ∧
    (100005 / 100000 : ℚ) ≠ round_dp TX_AMOUNT_DECIMAL_PLACES (100005 / 100000 : ℚ) := by
  constructor
  · rfl
  · have hr : round_dp TX_AMOUNT_DECIMAL_PLACES (100005 / 100000 : ℚ) = 1 := by
      show round_dp 4 _ = 1
      rw [round_dp_eq 4 _ 10000
        (roundHalfEven_eq_of_tie_lo _ _ (by norm_num) (by norm_num))]
      norm_num
    rw [hr]
    norm_num

/-- Claim C5, amended: Rounding is applied to a Deposit/Withdrawal amount
when the record is applied, before the balance mutation; the disputable
index stores the raw, unrounded record, and each Dispute/Resolve/Chargeback
read re-applies rounding to it; since rounding is idempotent the amount a
dispute-family record uses equals the once-rounded original amount. -/
theorem rounding_applied_at_each_use :
    (∀ (st : ProcState) (tx : Transaction),
      tx.type = TransactionType.deposit →
      (getClient st tx.client_id).locked = false →
      ∃ st', applyTx st tx = some st' ∧
        st'.disputable_transactions tx.tx_id = some tx ∧
        (getClient st' tx.client_id).available =
          (getClient st tx.client_id).available +
            round_dp TX_AMOUNT_DECIMAL_PLACES (tx.amount.getD 0)) ∧
    (∀ (st : ProcState) (tx : Transaction),
      tx.type = TransactionType.withdrawal →
      (getClient st tx.client_id).locked = false →
      ∃ st', applyTx st tx = some st' ∧
        st'.disputable_transactions tx.tx_id = some tx ∧
        (getClient st' tx.client_id).available =
          (if round_dp TX_AMOUNT_DECIMAL_PLACES (tx.amount.getD 0) ≤
              (getClient st tx.client_id).available then
            (getClient st tx.client_id).available -
              round_dp TX_AMOUNT_DECIMAL_PLACES (tx.amount.getD 0)
          else (getClient st tx.client_id).available)) ∧
    (∀ q : ℚ, round_dp TX_AMOUNT_DECIMAL_PLACES
        (round_dp TX_AMOUNT_DECIMAL_PLACES q) =
      round_dp TX_AMOUNT_DECIMAL_PLACES q) ∧
    (∀ (st : ProcState) (d otx : Transaction) (a : ℚ),
      d.type = TransactionType.dispute →
      (getClient st d.client_id).locked = false →
      st.disputable_transactions d.tx_id = some otx →
      otx.amount = some a →
      d.tx_id ∉ (getClient st d.client_id).disputed_tx_ids →
      ∃ st', applyTx st d = some st' ∧
        (getClient st' d.client_id).held =
          (getClient st d.client_id).held +
            round_dp TX_AMOUNT_DECIMAL_PLACES a) ∧
    (∀ (st : ProcState) (d otx : Transaction) (a : ℚ),
      d.type = TransactionType.resolve →
      (getClient st d.client_id).locked = false →
      st.disputable_transactions d.tx_id = some otx →
      otx.amount = some a →
      d.tx_id ∈ (getClient st d.client_id).disputed_tx_ids →
      ∃ st', applyTx st d = some st' ∧
        (getClient st' d.client_id).held =
          (getClient st d.client_id).held -
            round_dp TX_AMOUNT_DECIMAL_PLACES a) ∧
    (∀ (st : ProcState) (d otx : Transaction) (a : ℚ),
      d.type = TransactionType.chargeback →
      (getClient st d.client_id).locked = false →
      st.disputable_transactions d.tx_id = some otx →
      otx.amount = some a →
      d.tx_id ∈ (getClient st d.client_id).disputed_tx_ids →
      ∃ st', applyTx st d = some st' ∧
        (getClient st' d.client_id).held =
          (getClient st d.client_id).held -
            round_dp TX_AMOUNT_DECIMAL_PLACES a) := by
  refine ⟨?_, ?_, fun q => round_dp_idem _ q, ?_, ?_, ?_⟩
  · intro st tx htype hl
    rw [applyTx_unlocked st tx hl]
    simp only [matchArm, htype, Option.map_some']
    refine ⟨_, rfl, Function.update_same _ _ _, ?_⟩
    rw [getClient_of_cs_eq_some _ _ _ (Function.update_same _ _ _)]
  · intro st tx htype hl
    rw [applyTx_unlocked st tx hl]
    simp only [matchArm, htype, Option.map_some']
    refine ⟨_, rfl, Function.update_same _ _ _, ?_⟩
    by_cases hle : round_dp TX_AMOUNT_DECIMAL_PLACES (tx.amount.getD 0) ≤
        (getClient st tx.client_id).available
    · rw [if_pos hle, if_pos hle,
        getClient_of_cs_eq_some _ _ _ (Function.update_same _ _ _)]
    · rw [if_neg hle, if_neg hle,
        getClient_of_cs_eq_some _ _ _ (Function.update_same _ _ _)]
  · intro st d otx a htype hl hidx hamt hopen
    rcases dispute_success_fields st d otx a htype hl hidx hamt hopen with
      ⟨st', h1, _, _, h4, _⟩
    exact ⟨st', h1, h4⟩
  · intro st d otx a htype hl hidx hamt hmem
    rcases resolve_success_fields st d otx a htype hl hidx hamt hmem with
      ⟨st', h1, _, _, h4, _⟩
    exact ⟨st', h1, h4⟩
  · intro st d otx a htype hl hidx hamt hmem
    rcases chargeback_success_fields st d otx a htype hl hidx hamt hmem with
      ⟨st', h1, _, _, h4, _⟩
    exact ⟨st', h1, h4⟩

theorem rounding_applied_at_each_use_witness :
    round_dp TX_AMOUNT_DECIMAL_PLACES
        (round_dp TX_AMOUNT_DECIMAL_PLACES (100005 / 100000 : ℚ)) =
      round_dp TX_AMOUNT_DECIMAL_PLACES (100005 / 100000 : ℚ) :=
  rounding_applied_at_each_use.2.2.1 (100005 / 100000 : ℚ)

/-! ## Dispute idempotence -/

/-- A step on a present, locked account is the identity on the whole state. -/
theorem applyTx_fix_locked (st₁ : ProcState) (d : Transaction) (s : ClientState)
    (hcs : st₁.client_states d.client_id = some s)
    (hlk : s.locked = true) :
    applyTx st₁ d = some st₁ := by
  have hget : getClient st₁ d.client_id = s :=
    getClient_of_cs_eq_some st₁ s d.client_id hcs
  rw [applyTx_locked st₁ d (by rw [hget]; exact hlk)]
  congr 1
  apply ProcState.ext_fields
  · rw [hget, ← hcs]
    exact Function.update_eq_self _ _
  · rfl

/-- A step whose arm returns the account and index unchanged is the identity
on the whole state (given the `total` invariant for that account). -/
theorem applyTx_fix_noop (st₁ : ProcState) (d : Transaction) (s : ClientState)
    (hcs : st₁.client_states d.client_id = some s)
    (hlk : s.locked = false)
    (hinv : s.total = s.available + s.held)
    (harm : matchArm st₁ s d (round_dp TX_AMOUNT_DECIMAL_PLACES (d.amount.getD 0)) =
      some (s, st₁.disputable_transactions)) :
    applyTx st₁ d = some st₁ := by
  have hget : getClient st₁ d.client_id = s :=
    getClient_of_cs_eq_some st₁ s d.client_id hcs
  rw [applyTx_unlocked st₁ d (by rw [hget]; exact hlk), hget, harm]
  simp only [Option.map_some']
  congr 1
  apply ProcState.ext_fields
  · show Function.update st₁.client_states d.client_id
      (some { s with total := s.available + s.held }) = st₁.client_states
    rw [ClientState.total_rewrite_eq_self s hinv, ← hcs]
    exact Function.update_eq_self _ _
  · rfl

/-- Applying the same Dispute a second time leaves the state fixed. -/
theorem applyTx_dispute_fix (st st₁ : ProcState) (d : Transaction)
    (htype : d.type = TransactionType.dispute)
    (h : applyTx st d = some st₁) :
    applyTx st₁ d = some st₁ := by
  by_cases hl : (getClient st d.client_id).locked = true
  · rw [applyTx_locked st d hl] at h
    obtain rfl := Option.some_inj.mp h
    exact applyTx_fix_locked _ d (getClient st d.client_id)
      (Function.update_same _ _ _) hl
  · have hl' : (getClient st d.client_id).locked = false := by simpa using hl
    rw [applyTx_unlocked st d hl'] at h
    rcases Option.map_eq_some'.mp h with ⟨p, hp, rfl⟩
    simp only [matchArm, htype] at hp
    cases hdt : st.disputable_transactions d.tx_id with
    | none =>
        simp only [hdt] at hp
        obtain rfl := Option.some_inj.mp hp
        refine applyTx_fix_noop _ d _ (Function.update_same _ _ _) hl' rfl ?_
        simp only [matchArm, htype, hdt]
    | some dtx =>
        simp only [hdt] at hp
        by_cases hmem : d.tx_id ∈ (getClient st d.client_id).disputed_tx_ids
        · rw [if_pos hmem] at hp
          obtain rfl := Option.some_inj.mp hp
          refine applyTx_fix_noop _ d _ (Function.update_same _ _ _) hl' rfl ?_
          simp only [matchArm, htype, hdt]
          rw [if_pos hmem]
        · rw [if_neg hmem] at hp
          cases hamt : dtx.amount with
          | none => simp only [hamt] at hp; exact Option.noConfusion hp
          | some a =>
              simp only [hamt] at hp
              obtain rfl := Option.some_inj.mp hp
              refine applyTx_fix_noop _ d _ (Function.update_same _ _ _) hl' rfl ?_
              simp only [matchArm, htype, hdt]
              rw [if_pos (Finset.mem_insert_self _ _)]

/-- Claim C8: Disputing the same `tx_id` twice in immediate succession has the
same effect as disputing it once: the second Dispute is a no-op. -/
theorem dispute_idempotent (st : ProcState) (d : Transaction)
    (htype : d.type = TransactionType.dispute) :
    (applyTx st d).bind (fun s => applyTx s d) = applyTx st d := by
  cases h : applyTx st d with
  | none => rfl
  | some st₁ =>
      show applyTx st₁ d = some st₁
      exact applyTx_dispute_fix st st₁ d htype h

theorem dispute_idempotent_witness :
    (applyTx unlockedDemo ⟨TransactionType.dispute, 1, 4, none⟩).bind
        (fun s => applyTx s ⟨TransactionType.dispute, 1, 4, none⟩) =
      applyTx unlockedDemo ⟨TransactionType.dispute, 1, 4, none⟩ :=
  dispute_idempotent unlockedDemo ⟨TransactionType.dispute, 1, 4, none⟩ rfl

/-! ## Panic on disputing an amount-less transaction -/

/-- Claim C1, code bug: A Deposit with an absent amount is applied as zero,
but a later Dispute of the same `tx_id` reaches
`disputed_tx.amount.unwrap()` on the indexed record and panics: the run
aborts instead of treating the absent amount as zero. -/
theorem process_panics_on_amountless_dispute :
    process_csv [⟨TransactionType.deposit, 1, 1, none⟩,
                 ⟨TransactionType.dispute, 1, 1, none⟩] = none := by
  rfl

/-! ## The rounding law -/

/-- Claim C9: Amount rounding is round-half-to-even at 4 decimal places:
1.00004→1.0000, 1.00005→1.0000, 1.00006→1.0001, 1.00014→1.0001,
1.00015→1.0002, 1.00016→1.0002. -/
theorem rounding_half_even_examples :
    round_dp TX_AMOUNT_DECIMAL_PLACES (100004 / 100000 : ℚ) = 1 ∧
    round_dp TX_AMOUNT_DECIMAL_PLACES (100005 / 100000 : ℚ) = 1 ∧
    round_dp TX_AMOUNT_DECIMAL_PLACES (100006 / 100000 : ℚ) = 10001 / 10000 ∧
    round_dp TX_AMOUNT_DECIMAL_PLACES (100014 / 100000 : ℚ) = 10001 / 10000 ∧
    round_dp TX_AMOUNT_DECIMAL_PLACES (100015 / 100000 : ℚ) = 10002 / 10000 ∧
    round_dp TX_AMOUNT_DECIMAL_PLACES (100016 / 100000 : ℚ) = 10002 / 10000 := by
  refine ⟨?_, ?_, ?_, ?_, ?_, ?_⟩ <;> show round_dp 4 _ = _
  · rw [round_dp_eq 4 _ 10000
      (roundHalfEven_eq_of_near _ _ (by norm_num) (by norm_num))]
    norm_num
  · rw [round_dp_eq 4 _ 10000
      (roundHalfEven_eq_of_tie_lo _ _ (by norm_num) (by norm_num))]
    norm_num
  · rw [round_dp_eq 4 _ 10001
      (roundHalfEven_eq_of_near _ _ (by norm_num) (by norm_num))]
    norm_num
  · rw [round_dp_eq 4 _ 10001
      (roundHalfEven_eq_of_near _ _ (by norm_num) (by norm_num))]
    norm_num
  · rw [round_dp_eq 4 _ 10002
      (roundHalfEven_eq_of_tie_hi _ _ (by norm_num) (by norm_num))]
    norm_num
  · rw [round_dp_eq 4 _ 10002
      (roundHalfEven_eq_of_near _ _ (by norm_num) (by norm_num))]
    norm_num

/-! ## Dispute can drive available negative -/

/-- Claim C10: There is an input on which a client's final available balance is
strictly negative: deposit 1.0, withdraw 1.0, then dispute the deposit
leaves `available = -1`. -/
theorem dispute_can_drive_available_negative :
    (getClient ((process_csv
      [⟨TransactionType.deposit, 1, 1, some 1⟩,
       ⟨TransactionType.withdrawal, 1, 2, some 1⟩,
       ⟨TransactionType.dispute, 1, 1, none⟩]).getD initState) 1).available = -1 ∧
    ((-1 : ℚ) < 0) := by
  constructor
  · simp only [process_csv, List.foldlM_cons, List.foldlM_nil]
    simp [applyTx, matchArm, getOrCreate, getClient, initState, ClientState.default,
      Function.update, round_dp_one, Option.getD_some]
  · norm_num
